import Mathlib

/-!
# Verification of the kik_sync_service worker-pool engine

Shallow embedding of the crate's core (src/kik_channel.rs, src/kik_feeder.rs,
src/kik_worker.rs, src/kik_message.rs) and proofs of the specification's
claims about it.

The embedding models:

* `ChannelConfig` and its setters/getters (kik_channel.rs).  Rust panics on
  invalid values are modelled as `Except ConfigError _` with
  `ConfigError.InvalidConfig`; a panic leaves the caller's configuration
  untouched, which the `Except` encoding reflects (the error case yields no
  new configuration).
* `FeederRecycler` (kik_feeder.rs), the single-threaded coordinator's
  state.  The two channels plus the worker pool are abstracted into a
  single FIFO list `pending` of envelopes dispatched but not yet
  collected; a worker's `work` transformation is applied when the envelope
  is collected (observationally equivalent for a deterministic
  transformation).  At this layer `send_message` is total — adequate for
  safety facts (counter bounds, counts, backlog order) but not for
  completion.  The field `constructed` instruments the model, counting the
  calls to the envelope constructor `S::new()`.
* `DeliveryService` (kik_channel.rs), the system layer that restores the
  bounded queues: both queues are `sync_channel(channel_size)` and the
  workers can park at most one envelope each, so a `try_send` Full-retry
  spin succeeds exactly while the in-flight count is below
  `2 * channel_size + worker_number`; at or above it the coordinator
  deadlocks, modelled as `none`.  Completion claims (conservation, the
  step returning a result) are settled at this layer.
* The worker's message-acquisition loop (kik_worker.rs), as a function over
  the stream of observations the loop body makes (handle upgrade result,
  lock state, receive result).
-/

namespace KikSync

/-! ## Configuration (src/kik_channel.rs) -/

/-- Error outcome of a configuration setter.  The Rust code panics with a
message; the spec names the condition `InvalidConfig`. -/
inductive ConfigError where
  | InvalidConfig
  deriving Repr, DecidableEq

/-- The four tunables of `ChannelConfig` (kik_channel.rs lines 36-41). -/
structure ChannelConfig where
  stack_size : Nat
  worker_number : Nat
  package_number : Nat
  channel_size : Nat
  deriving Repr, DecidableEq

namespace ChannelConfig

/-- `ChannelConfig::default` (kik_channel.rs lines 43-58):
`worker_number = 8`, `channel_size = worker_number`,
`package_number = channel_size * 2`, `stack_size = 2 * 1024 * 1024`. -/
def default : ChannelConfig :=
  let worker_number : Nat := 8
  let channel_size : Nat := worker_number
  let package_number : Nat := channel_size * 2
  { stack_size := 2 * 1024 * 1024
    worker_number := worker_number
    channel_size := channel_size
    package_number := package_number }

/-- `ChannelConfig::new` delegates to `default`. -/
def new : ChannelConfig := default

/-- `ChannelConfig::set_worker_number` (kik_channel.rs lines 70-77): panics
(`InvalidConfig`) if `worker_number < 1`; otherwise sets `worker_number`,
resets `channel_size` to the same value and `package_number` to twice it. -/
def set_worker_number (c : ChannelConfig) (worker_number : Nat) :
    Except ConfigError ChannelConfig :=
  if worker_number < 1 then
    .error .InvalidConfig
  else
    .ok { c with
          worker_number := worker_number
          channel_size := worker_number
          package_number := worker_number * 2 }

/-- `ChannelConfig::set_package_number` (kik_channel.rs lines 80-85): panics
(`InvalidConfig`) if `package_number <= worker_number`. -/
def set_package_number (c : ChannelConfig) (package_number : Nat) :
    Except ConfigError ChannelConfig :=
  if package_number ≤ c.worker_number then
    .error .InvalidConfig
  else
    .ok { c with package_number := package_number }

/-- `ChannelConfig::set_stack_size` (kik_channel.rs lines 88-90): unchecked. -/
def set_stack_size (c : ChannelConfig) (new_stack_size : Nat) : ChannelConfig :=
  { c with stack_size := new_stack_size }

/-- `ChannelConfig::get_stack_size`. -/
def get_stack_size (c : ChannelConfig) : Nat := c.stack_size

/-- `ChannelConfig::get_worker_number`. -/
def get_worker_number (c : ChannelConfig) : Nat := c.worker_number

/-- `ChannelConfig::get_package_number`. -/
def get_package_number (c : ChannelConfig) : Nat := c.package_number

/-- `ChannelConfig::get_channel_size`. -/
def get_channel_size (c : ChannelConfig) : Nat := c.channel_size

end ChannelConfig

/-- Configurations reachable from `ChannelConfig::default` by successful
setter calls (the error case of a setter leaves the caller's configuration
unchanged, so it does not add reachable states). -/
inductive ReachableConfig : ChannelConfig → Prop where
  | default : ReachableConfig ChannelConfig.default
  | set_worker_number {c c' : ChannelConfig} {w : Nat} :
      ReachableConfig c → c.set_worker_number w = .ok c' → ReachableConfig c'
  | set_package_number {c c' : ChannelConfig} {p : Nat} :
      ReachableConfig c → c.set_package_number p = .ok c' → ReachableConfig c'
  | set_stack_size {c : ChannelConfig} {n : Nat} :
      ReachableConfig c → ReachableConfig (c.set_stack_size n)

/-! ## The capability contract (src/kik_message.rs)

`MessageData T`, `MessageInput R` and `Message S` are traits; the model
packages their operations into one record of functions over the three
carrier types. -/

/-- The operations of the `Message` / `MessageInput` / `MessageData` traits
(kik_message.rs): `S::new()`, `Message::set_input`, `Message::work`,
`Message::clone_message_data`. -/
structure MessageOps (T R S : Type) where
  new : S
  set_input : S → R → S
  work : S → S
  clone_message_data : S → T

/-! ## The coordinator (src/kik_feeder.rs) -/

/-- `Vec::pop`: removes and returns the last element of a Rust `Vec`,
together with the remaining vector; `none` on an empty vector. -/
def vecPop {α : Type} (l : List α) : Option (List α × α) :=
  match l.getLast? with
  | none => none
  | some x => some (l.dropLast, x)

/-- State of `FeederRecycler` (kik_feeder.rs lines 41-59).  The two
channel endpoints `tx_inserter`/`rx_deliverer`, the workers, and the
envelopes travelling between them are abstracted into the FIFO list
`pending` (envelopes dispatched but not yet collected); `constructed`
instruments the model with the number of `S::new()` calls made so far.
The queues' capacities are not part of this state; they are restored by
the `DeliveryService` layer below. -/
structure FeederRecycler (T R S : Type) where
  id : Nat
  messages : Nat
  package_number : Nat
  input_vec : List R
  pending : List S
  constructed : Nat
  deriving DecidableEq

namespace FeederRecycler

variable {T R S : Type}

/-- `FeederRecycler::new` (kik_feeder.rs lines 67-81): empty backlog, zero
in-flight counter. -/
def new (id package_number : Nat) : FeederRecycler T R S :=
  { id := id
    messages := 0
    package_number := package_number
    input_vec := []
    pending := []
    constructed := 0 }

/-- `FeederRecycler::append_input` (kik_feeder.rs lines 83-85):
`Vec::append` moves every element of the caller's vector to the end of
`input_vec`, leaving the caller's vector empty.  Returns the new state and
the caller's (now empty) vector. -/
def append_input (st : FeederRecycler T R S) (input_vec : List R) :
    FeederRecycler T R S × List R :=
  ({ st with input_vec := st.input_vec ++ input_vec }, [])

/-- `FeederRecycler::send_message` (kik_feeder.rs lines 88-112): clones the
message, retries `try_send` on a full queue, and increments `messages` on
success; the dispatched envelope joins the end of `pending`.  This
state-level version records only the effect of a send that succeeds; the
condition under which the retry spin actually terminates lives in
`DeliveryService.send_message`. -/
def send_message (st : FeederRecycler T R S) (message : S) :
    FeederRecycler T R S :=
  { st with
    messages := st.messages + 1
    pending := st.pending ++ [message] }

/-- `FeederRecycler::get_message` (kik_feeder.rs lines 116-142): retries
`try_recv` until a message arrives, then decrements `messages`.  A worker
applies `Message::work` to the envelope before delivering it, so the
collected envelope is `ops.work` of the dispatched one; when nothing is
pending the Rust loop blocks forever, modelled as `none`. -/
def get_message (ops : MessageOps T R S) (st : FeederRecycler T R S) :
    Option (S × FeederRecycler T R S) :=
  match st.pending with
  | [] => none
  | m :: rest =>
      some (ops.work m, { st with messages := st.messages - 1, pending := rest })

/-- `FeederRecycler::get_remaining_messages` (kik_feeder.rs lines 145-147):
`messages + input_vec.len()`. -/
def get_remaining_messages (st : FeederRecycler T R S) : Nat :=
  st.messages + st.input_vec.length

/-- Loop body count of `feed_initial_messages`: the Rust
`for _ in (self.messages)..(self.package_number)` fixes the iteration count
up front; each iteration pops one input from the end of the backlog (break
when empty), constructs a fresh envelope, installs the input and sends it. -/
def feed_loop (ops : MessageOps T R S) :
    Nat → FeederRecycler T R S → FeederRecycler T R S
  | 0, st => st
  | n + 1, st =>
      match vecPop st.input_vec with
      | none => st
      | some (rest, new_input) =>
          feed_loop ops n
            (send_message
              { st with input_vec := rest, constructed := st.constructed + 1 }
              (ops.set_input ops.new new_input))

/-- `FeederRecycler::feed_initial_messages` (kik_feeder.rs lines 150-163). -/
def feed_initial_messages (ops : MessageOps T R S)
    (st : FeederRecycler T R S) : FeederRecycler T R S :=
  feed_loop ops (st.package_number - st.messages) st

/-- `FeederRecycler::retrieve_data` (kik_feeder.rs lines 166-219), one
iteration step.  The outer `Option` is divergence of a blocking receive
(never happens when `messages` matches the pending envelopes); the inner
`Option T` is the iterator item, `none` signalling end of sequence. -/
def retrieve_data (ops : MessageOps T R S) (st : FeederRecycler T R S) :
    Option (Option T × FeederRecycler T R S) :=
  match vecPop st.input_vec with
  | none =>
      if st.messages = 0 then
        some (none, st)
      else
        match get_message ops st with
        | none => none
        | some (new_message, st') =>
            some (some (ops.clone_message_data new_message), st')
  | some (rest, new_input) =>
      let st0 : FeederRecycler T R S := { st with input_vec := rest }
      if st0.messages = 0 then
        let st1 := send_message { st0 with constructed := st0.constructed + 1 }
          (ops.set_input ops.new new_input)
        let st2 := feed_initial_messages ops st1
        match get_message ops st2 with
        | none => none
        | some (new_message, st3) =>
            some (some (ops.clone_message_data new_message),
                  feed_initial_messages ops st3)
      else
        let st1 :=
          if st0.messages < st0.package_number then
            feed_initial_messages ops st0
          else st0
        match get_message ops st1 with
        | none => none
        | some (new_message, st2) =>
            some (some (ops.clone_message_data new_message),
                  send_message st2 (ops.set_input new_message new_input))

/-- `Iterator::next` for `FeederRecycler` (kik_feeder.rs lines 231-235):
delegates to `retrieve_data`. -/
def next (ops : MessageOps T R S) (st : FeederRecycler T R S) :
    Option (Option T × FeederRecycler T R S) :=
  retrieve_data ops st

/-- Drain the feeder: call `retrieve_data` repeatedly (up to `fuel` times),
collecting the returned results, stopping at end-of-sequence (or if a step
diverges, which the well-formedness invariant rules out). -/
def drain (ops : MessageOps T R S) :
    Nat → FeederRecycler T R S → List T
  | 0, _ => []
  | fuel + 1, st =>
      match retrieve_data ops st with
      | none => []
      | some (none, _) => []
      | some (some d, st') => d :: drain ops fuel st'

/-- Well-formedness: the in-flight counter agrees with the number of
envelopes actually outstanding.  Holds for a fresh feeder and is preserved
by every operation; it is what makes the blocking receive terminate. -/
def wf (st : FeederRecycler T R S) : Prop :=
  st.messages = st.pending.length

/-- `top_up`, written from the spec's words (§4.3): "while
`in_flight_counter < in_flight_budget` and the backlog is non-empty, pop
one Input from the backlog, install it into a freshly constructed
Envelope, and `dispatch` it."  To be compared with the source-derived
`feed_initial_messages`, whose `for` loop fixes its iteration count up
front. -/
def top_up (ops : MessageOps T R S) (st : FeederRecycler T R S) :
    FeederRecycler T R S :=
  if h : st.messages < st.package_number then
    match vecPop st.input_vec with
    | none => st
    | some (rest, new_input) =>
        top_up ops
          (send_message
            { st with input_vec := rest, constructed := st.constructed + 1 }
            (ops.set_input ops.new new_input))
  else st
  termination_by st.package_number - st.messages
  decreasing_by
    simp only [send_message]
    omega

end FeederRecycler

/-- A trivial instantiation of the capability contract (all three carrier
types are `Unit`), used to evaluate the model at concrete inputs. -/
def unitOps : MessageOps Unit Unit Unit :=
  { new := ()
    set_input := fun _ _ => ()
    work := fun s => s
    clone_message_data := fun _ => () }

/-- A concrete feeder state in the steady case (backlog non-empty,
in-flight counter positive) that is strictly under budget, used to
evaluate the envelope-construction count of one steady-state step. -/
def underBudgetState : FeederRecycler Unit Unit Unit :=
  { id := 0
    messages := 1
    package_number := 2
    input_vec := [(), ()]
    pending := [()]
    constructed := 0 }

/-- A concrete feeder state in the bootstrap case (backlog non-empty,
in-flight counter zero). -/
def bootstrapState : FeederRecycler Unit Unit Unit :=
  { id := 0
    messages := 0
    package_number := 1
    input_vec := [()]
    pending := []
    constructed := 0 }

/-- A concrete feeder state in the steady case that is exactly at the
in-flight budget. -/
def steadyAtBudgetState : FeederRecycler Unit Unit Unit :=
  { id := 0
    messages := 1
    package_number := 1
    input_vec := [()]
    pending := [()]
    constructed := 0 }

/-! ## The full system with its bounded queues (src/kik_channel.rs)

`FeederRecycler` above models the coordinator's state but totalizes
`send_message`: faithful for safety facts, but both queues are
`sync_channel(channel_size)` (kik_channel.rs lines 170-172), and during a
top-up the coordinator never collects, so the `try_send` Full-retry spin
(kik_feeder.rs lines 90-111) can park envelopes only in the dispatch
queue (`channel_size`), one in each worker's hands (`worker_number`;
each worker holds one envelope between its receive and its send,
kik_worker.rs lines 135-142) and the collection queue (`channel_size`).
Once the in-flight count reaches `2 * channel_size + worker_number`
every slot is (or becomes) occupied, nothing drains, and the spin never
succeeds — the coordinator deadlocks.  `DeliveryService` carries the two
capacity parameters and threads this liveness condition through the
coordinator's operations: `none` is a busy-wait spin that never ends.
Liveness of a send below the capacity assumes at least one live worker
whose transformation terminates (the spec's scope excludes user
transformation failures). -/

/-- The `DeliveryService` (kik_channel.rs lines 131-197) as the liveness
analysis sees it: the coordinator state plus the queue capacity
`channel_size` (both queues, kik_channel.rs lines 170-172) and the number
of worker threads. -/
structure DeliveryService (T R S : Type) where
  worker_number : Nat
  channel_size : Nat
  feeder : FeederRecycler T R S
  deriving DecidableEq

namespace DeliveryService

variable {T R S : Type}

/-- `DeliveryService::new` (kik_channel.rs lines 161-197): queues of
capacity `channel_size`, a feeder with budget `package_number`. -/
def new (config : ChannelConfig) : DeliveryService T R S :=
  { worker_number := config.get_worker_number
    channel_size := config.get_channel_size
    feeder := FeederRecycler.new 0 config.get_package_number }

/-- `DeliveryService::feed_feeder` (kik_channel.rs lines 200-202):
delegates to the feeder's `append_input`. -/
def feed_feeder (sys : DeliveryService T R S) (input_vec : List R) :
    DeliveryService T R S × List R :=
  ({ sys with feeder := (sys.feeder.append_input input_vec).1 },
   (sys.feeder.append_input input_vec).2)

/-- `DeliveryService::len` (kik_channel.rs lines 205-207). -/
def len (sys : DeliveryService T R S) : Nat :=
  sys.feeder.get_remaining_messages

/-- Most envelopes that can be parked outside the coordinator while it is
not collecting: the dispatch queue (`channel_size`), one per worker, the
collection queue (`channel_size`). -/
def transit_capacity (sys : DeliveryService T R S) : Nat :=
  2 * sys.channel_size + sys.worker_number

/-- `FeederRecycler::send_message` as executed inside the full system,
with the transit capacity `cap`: the Full-retry spin succeeds exactly
while the in-flight count is below `cap` (workers keep draining the
dispatch queue until every slot downstream is taken); at or above `cap`
the spin never ends (`none`). -/
def send_bounded (cap : Nat) (st : FeederRecycler T R S) (message : S) :
    Option (FeederRecycler T R S) :=
  if st.messages < cap then
    some (st.send_message message)
  else
    none

/-- The loop of `feed_initial_messages` with bounded sends: a send that
spins forever makes the whole loop spin (`none`). -/
def feed_loop_bounded (ops : MessageOps T R S) (cap : Nat) :
    Nat → FeederRecycler T R S → Option (FeederRecycler T R S)
  | 0, st => some st
  | n + 1, st =>
      match vecPop st.input_vec with
      | none => some st
      | some (rest, new_input) =>
          match send_bounded cap
              { st with input_vec := rest, constructed := st.constructed + 1 }
              (ops.set_input ops.new new_input) with
          | none => none
          | some st' => feed_loop_bounded ops cap n st'

/-- `FeederRecycler::feed_initial_messages` with bounded sends. -/
def feed_initial_messages_bounded (ops : MessageOps T R S) (cap : Nat)
    (st : FeederRecycler T R S) : Option (FeederRecycler T R S) :=
  feed_loop_bounded ops cap (st.package_number - st.messages) st

/-- `FeederRecycler::retrieve_data` with bounded sends: the same four
cases as `FeederRecycler.retrieve_data`, every dispatch going through
`send_bounded`; `none` means the step never returns (a busy-wait spin
that cannot end).  Receives need no bound: an envelope in flight always
reaches the collection queue. -/
def retrieve_bounded (ops : MessageOps T R S) (cap : Nat)
    (st : FeederRecycler T R S) :
    Option (Option T × FeederRecycler T R S) :=
  match vecPop st.input_vec with
  | none =>
      if st.messages = 0 then
        some (none, st)
      else
        match FeederRecycler.get_message ops st with
        | none => none
        | some (m, st') => some (some (ops.clone_message_data m), st')
  | some (rest, new_input) =>
      if st.messages = 0 then
        match send_bounded cap
            { st with input_vec := rest, constructed := st.constructed + 1 }
            (ops.set_input ops.new new_input) with
        | none => none
        | some st1 =>
            match feed_initial_messages_bounded ops cap st1 with
            | none => none
            | some st2 =>
                match FeederRecycler.get_message ops st2 with
                | none => none
                | some (m, st3) =>
                    match feed_initial_messages_bounded ops cap st3 with
                    | none => none
                    | some st4 =>
                        some (some (ops.clone_message_data m), st4)
      else
        match (if st.messages < st.package_number
               then feed_initial_messages_bounded ops cap
                 { st with input_vec := rest }
               else some { st with input_vec := rest }) with
        | none => none
        | some st1 =>
            match FeederRecycler.get_message ops st1 with
            | none => none
            | some (m, st2) =>
                match send_bounded cap st2 (ops.set_input m new_input) with
                | none => none
                | some st3 =>
                    some (some (ops.clone_message_data m), st3)

/-- Iterating with bounded sends until end-of-sequence or a deadlocked
step (after which no further result is ever produced). -/
def drain_bounded (ops : MessageOps T R S) (cap : Nat) :
    Nat → FeederRecycler T R S → List T
  | 0, _ => []
  | fuel + 1, st =>
      match retrieve_bounded ops cap st with
      | none => []
      | some (none, _) => []
      | some (some d, st') => d :: drain_bounded ops cap fuel st'

/-- One iteration step of the full system: `retrieve_bounded` at the
system's transit capacity. -/
def retrieve_data (ops : MessageOps T R S) (sys : DeliveryService T R S) :
    Option (Option T × DeliveryService T R S) :=
  match retrieve_bounded ops (transit_capacity sys) sys.feeder with
  | none => none
  | some (d, st) => some (d, { sys with feeder := st })

/-- Draining the full system (the capacity parameters never change). -/
def drain (ops : MessageOps T R S) (fuel : Nat)
    (sys : DeliveryService T R S) : List T :=
  drain_bounded ops (transit_capacity sys) fuel sys.feeder

end DeliveryService

/-- The deadlocking system of the bounded model: one worker, queue
capacity one (so transit capacity 3), in-flight budget 4 — a valid
configuration, reachable by `set_worker_number 1` then
`set_package_number 4` — with four inputs fed. -/
def deadlockService : DeliveryService Unit Unit Unit :=
  { worker_number := 1
    channel_size := 1
    feeder :=
      { id := 0
        messages := 0
        package_number := 4
        input_vec := [(), (), (), ()]
        pending := []
        constructed := 0 } }

/-! ## The worker loop (src/kik_worker.rs)

`Worker::get_message` (lines 65-108) is a loop whose body observes, in
order: the result of `Weak::upgrade` on the shared receive handle, then (if
alive) the result of `Mutex::try_lock`, then (if locked) the result of
`Receiver::try_recv`.  One `AcquireObs` records what a single iteration of
the loop body observed; `worker_get_message` is the loop as a function of
the observation stream. -/

/-- What one iteration of `Worker::get_message`'s loop body observes. -/
inductive AcquireObs (S : Type) where
  /-- `self.rx_inserter.upgrade()` returned `None` (Pool disposed). -/
  | expired
  /-- `try_lock` returned `Err(Poisoned(_))`. -/
  | poisoned
  /-- `try_lock` returned `Err(WouldBlock)`. -/
  | wouldBlock
  /-- lock acquired, `try_recv` returned `Err(Empty)`. -/
  | recvEmpty
  /-- lock acquired, `try_recv` returned `Err(Disconnected)`. -/
  | recvDisconnected
  /-- lock acquired, `try_recv` returned `Ok(m)`. -/
  | recvOk (m : S)

/-- Outcome of running `Worker::get_message` against a finite stream of
observations. -/
inductive WorkerOutcome (S : Type) where
  /-- the function returned a message. -/
  | msg (m : S)
  /-- the thread panicked (fatal). -/
  | panicked
  /-- the loop consumed the whole stream without returning: it is still
  spinning. -/
  | spinning
  deriving Repr, DecidableEq

/-- `Worker::get_message` (kik_worker.rs lines 65-108).  In the `expired`
and `recvDisconnected` cases the code executes `std::mem::drop(self)` where
`self : &Worker` — dropping a shared reference is a no-op — and the loop
has no `break` or `return` on those paths, so it simply continues. -/
def worker_get_message {S : Type} : List (AcquireObs S) → WorkerOutcome S
  | [] => .spinning
  | obs :: rest =>
      match obs with
      | .expired => worker_get_message rest
      | .poisoned => .panicked
      | .wouldBlock => worker_get_message rest
      | .recvEmpty => worker_get_message rest
      | .recvDisconnected => worker_get_message rest
      | .recvOk m => .msg m

/-! ## Lemmas about `vecPop` -/

theorem vecPop_concat {α : Type} (l : List α) (x : α) :
    vecPop (l ++ [x]) = some (l, x) := by
  simp [vecPop, List.getLast?_concat, List.dropLast_concat]

theorem vecPop_eq_none_iff {α : Type} {l : List α} :
    vecPop l = none ↔ l = [] := by
  unfold vecPop
  cases h : l.getLast? with
  | none => simpa using List.getLast?_eq_none_iff.mp h
  | some x =>
      simp only [reduceCtorEq, false_iff]
      rintro rfl
      simp at h

theorem vecPop_eq_some {α : Type} {l rest : List α} {x : α}
    (h : vecPop l = some (rest, x)) : l = rest ++ [x] := by
  unfold vecPop at h
  cases hl : l.getLast? with
  | none => rw [hl] at h; exact absurd h (by simp)
  | some y =>
      rw [hl] at h
      simp only [Option.some.injEq, Prod.mk.injEq] at h
      obtain ⟨h1, h2⟩ := h
      have hne : l ≠ [] := by
        rintro rfl; simp at hl
      have hg : l.getLast hne = y := by
        have hthis := List.getLast?_eq_getLast l hne
        rw [hl] at hthis
        exact (Option.some_inj.mp hthis).symm
      subst h1 h2
      rw [← hg]
      exact (List.dropLast_append_getLast hne).symm

namespace FeederRecycler

variable {T R S : Type}

/-! ## Basic lemmas about feeder operations -/

theorem send_message_messages (st : FeederRecycler T R S) (m : S) :
    (st.send_message m).messages = st.messages + 1 := rfl

theorem wf_send_message {st : FeederRecycler T R S} (h : wf st) (m : S) :
    wf (st.send_message m) := by
  simp [wf, send_message] at h ⊢
  omega

theorem wf_new (id pn : Nat) : wf (new (T := T) (R := R) (S := S) id pn) := by
  simp [wf, new]

theorem wf_append_input {st : FeederRecycler T R S} (h : wf st) (v : List R) :
    wf (st.append_input v).1 := by
  simpa [wf, append_input] using h

theorem get_message_of_wf {st : FeederRecycler T R S} (ops : MessageOps T R S)
    (hwf : wf st) (hm : st.messages ≠ 0) :
    ∃ e rest, st.pending = e :: rest ∧
      get_message ops st =
        some (ops.work e, { st with messages := st.messages - 1, pending := rest }) := by
  cases hp : st.pending with
  | nil => rw [wf, hp] at hwf; simp at hwf; exact absurd hwf hm
  | cons e rest => exact ⟨e, rest, rfl, by simp [get_message, hp]⟩

/-! ## Lemmas about the top-up loop -/

theorem feed_loop_zero (ops : MessageOps T R S) (st : FeederRecycler T R S) :
    feed_loop ops 0 st = st := rfl

theorem feed_loop_succ_none (ops : MessageOps T R S) {st : FeederRecycler T R S}
    (hpop : vecPop st.input_vec = none) (n : Nat) :
    feed_loop ops (n + 1) st = st := by
  simp only [feed_loop, hpop]

theorem feed_loop_succ_pop (ops : MessageOps T R S) {st : FeederRecycler T R S}
    {rest : List R} {x : R} (hpop : vecPop st.input_vec = some (rest, x)) (n : Nat) :
    feed_loop ops (n + 1) st =
      feed_loop ops n
        (send_message
          { st with input_vec := rest, constructed := st.constructed + 1 }
          (ops.set_input ops.new x)) := by
  simp only [feed_loop, hpop]

theorem feed_loop_package (ops : MessageOps T R S) (n : Nat) :
    ∀ st : FeederRecycler T R S,
      (feed_loop ops n st).package_number = st.package_number := by
  induction n with
  | zero => intro st; rfl
  | succ n ih =>
      intro st
      cases hpop : vecPop st.input_vec with
      | none => rw [feed_loop_succ_none ops hpop]
      | some p =>
          obtain ⟨rest, x⟩ := p
          rw [feed_loop_succ_pop ops hpop, ih]
          rfl

theorem feed_loop_wf (ops : MessageOps T R S) (n : Nat) :
    ∀ st : FeederRecycler T R S, wf st → wf (feed_loop ops n st) := by
  induction n with
  | zero => intro st h; exact h
  | succ n ih =>
      intro st h
      cases hpop : vecPop st.input_vec with
      | none => rw [feed_loop_succ_none ops hpop]; exact h
      | some p =>
          obtain ⟨rest, x⟩ := p
          rw [feed_loop_succ_pop ops hpop]
          exact ih _ (wf_send_message (by simpa [wf] using h) _)

theorem feed_loop_remaining (ops : MessageOps T R S) (n : Nat) :
    ∀ st : FeederRecycler T R S,
      get_remaining_messages (feed_loop ops n st) = get_remaining_messages st := by
  induction n with
  | zero => intro st; rfl
  | succ n ih =>
      intro st
      cases hpop : vecPop st.input_vec with
      | none => rw [feed_loop_succ_none ops hpop]
      | some p =>
          obtain ⟨rest, x⟩ := p
          rw [feed_loop_succ_pop ops hpop, ih]
          have hlen : st.input_vec.length = rest.length + 1 := by
            rw [vecPop_eq_some hpop]; simp
          simp [get_remaining_messages, send_message, hlen]
          omega

theorem feed_loop_messages_ge (ops : MessageOps T R S) (n : Nat) :
    ∀ st : FeederRecycler T R S,
      st.messages ≤ (feed_loop ops n st).messages := by
  induction n with
  | zero => intro st; exact le_refl _
  | succ n ih =>
      intro st
      cases hpop : vecPop st.input_vec with
      | none => rw [feed_loop_succ_none ops hpop]
      | some p =>
          obtain ⟨rest, x⟩ := p
          rw [feed_loop_succ_pop ops hpop]
          have := ih (send_message
            { st with input_vec := rest, constructed := st.constructed + 1 }
            (ops.set_input ops.new x))
          simp only [send_message] at this ⊢
          omega

theorem feed_loop_messages_le (ops : MessageOps T R S) (n : Nat) :
    ∀ st : FeederRecycler T R S,
      (feed_loop ops n st).messages ≤ st.messages + n := by
  induction n with
  | zero => intro st; exact le_refl _
  | succ n ih =>
      intro st
      cases hpop : vecPop st.input_vec with
      | none => rw [feed_loop_succ_none ops hpop]; omega
      | some p =>
          obtain ⟨rest, x⟩ := p
          rw [feed_loop_succ_pop ops hpop]
          have := ih (send_message
            { st with input_vec := rest, constructed := st.constructed + 1 }
            (ops.set_input ops.new x))
          simp only [send_message] at this ⊢
          omega

theorem feed_loop_input_drop (ops : MessageOps T R S) (n : Nat) :
    ∀ st : FeederRecycler T R S,
      ∃ dropped, st.input_vec = (feed_loop ops n st).input_vec ++ dropped := by
  induction n with
  | zero => intro st; exact ⟨[], by simp [feed_loop_zero]⟩
  | succ n ih =>
      intro st
      cases hpop : vecPop st.input_vec with
      | none => rw [feed_loop_succ_none ops hpop]; exact ⟨[], by simp⟩
      | some p =>
          obtain ⟨rest, x⟩ := p
          rw [feed_loop_succ_pop ops hpop]
          obtain ⟨dropped, hdrop⟩ := ih (send_message
            { st with input_vec := rest, constructed := st.constructed + 1 }
            (ops.set_input ops.new x))
          simp only [send_message] at hdrop ⊢
          refine ⟨dropped ++ [x], ?_⟩
          rw [vecPop_eq_some hpop, ← List.append_assoc, ← hdrop]

/-- `feed_loop` is the identity on an empty backlog, whatever the count. -/
theorem feed_loop_none (ops : MessageOps T R S) {st : FeederRecycler T R S}
    (hpop : vecPop st.input_vec = none) (n : Nat) :
    feed_loop ops n st = st := by
  cases n with
  | zero => rfl
  | succ n => exact feed_loop_succ_none ops hpop n

/-! ## Lemmas about `feed_initial_messages` -/

theorem feed_initial_messages_wf (ops : MessageOps T R S)
    {st : FeederRecycler T R S} (h : wf st) :
    wf (feed_initial_messages ops st) :=
  feed_loop_wf ops _ st h

theorem feed_initial_messages_package (ops : MessageOps T R S)
    (st : FeederRecycler T R S) :
    (feed_initial_messages ops st).package_number = st.package_number :=
  feed_loop_package ops _ st

theorem feed_initial_messages_remaining (ops : MessageOps T R S)
    (st : FeederRecycler T R S) :
    get_remaining_messages (feed_initial_messages ops st) =
      get_remaining_messages st :=
  feed_loop_remaining ops _ st

theorem feed_initial_messages_ge (ops : MessageOps T R S)
    (st : FeederRecycler T R S) :
    st.messages ≤ (feed_initial_messages ops st).messages :=
  feed_loop_messages_ge ops _ st

theorem feed_initial_messages_le_budget (ops : MessageOps T R S)
    {st : FeederRecycler T R S} (h : st.messages ≤ st.package_number) :
    (feed_initial_messages ops st).messages ≤ st.package_number := by
  have := feed_loop_messages_le ops (st.package_number - st.messages) st
  rw [feed_initial_messages] at *
  omega

theorem feed_initial_messages_input_drop (ops : MessageOps T R S)
    (st : FeederRecycler T R S) :
    ∃ dropped,
      st.input_vec = (feed_initial_messages ops st).input_vec ++ dropped :=
  feed_loop_input_drop ops _ st

theorem top_up_eq_feed_initial_messages (ops : MessageOps T R S)
    (st : FeederRecycler T R S) :
    top_up ops st = feed_initial_messages ops st := by
  generalize hk : st.package_number - st.messages = k
  induction k generalizing st with
  | zero =>
      rw [top_up, feed_initial_messages, hk, feed_loop_zero, dif_neg]
      omega
  | succ k ih =>
      have hlt : st.messages < st.package_number := by omega
      rw [top_up, dif_pos hlt, feed_initial_messages, hk]
      cases hpop : vecPop st.input_vec with
      | none =>
          rw [feed_loop_none ops hpop]
      | some p =>
          obtain ⟨rest, x⟩ := p
          rw [feed_loop_succ_pop ops hpop k]
          have harg : (send_message (T := T)
              { st with input_vec := rest, constructed := st.constructed + 1 }
              (ops.set_input ops.new x)).package_number -
              (send_message (T := T)
              { st with input_vec := rest, constructed := st.constructed + 1 }
              (ops.set_input ops.new x)).messages = k := by
            simp only [send_message]
            omega
          exact (ih _ harg).trans (by rw [feed_initial_messages, harg])

/-! ## Branch lemmas for `retrieve_data` -/

theorem retrieve_data_done (ops : MessageOps T R S) {st : FeederRecycler T R S}
    (hpop : vecPop st.input_vec = none) (hm : st.messages = 0) :
    retrieve_data ops st = some (none, st) := by
  simp [retrieve_data, hpop, hm]

theorem retrieve_data_collect (ops : MessageOps T R S) {st : FeederRecycler T R S}
    (hpop : vecPop st.input_vec = none) (hm : st.messages ≠ 0) :
    retrieve_data ops st =
      match get_message ops st with
      | none => none
      | some (m, st') => some (some (ops.clone_message_data m), st') := by
  simp [retrieve_data, hpop, hm]

theorem retrieve_data_bootstrap (ops : MessageOps T R S)
    {st : FeederRecycler T R S} {rest : List R} {x : R}
    (hpop : vecPop st.input_vec = some (rest, x)) (hm : st.messages = 0) :
    retrieve_data ops st =
      match get_message ops
          (feed_initial_messages ops
            (send_message
              { st with input_vec := rest, constructed := st.constructed + 1 }
              (ops.set_input ops.new x))) with
      | none => none
      | some (m, st3) =>
          some (some (ops.clone_message_data m), feed_initial_messages ops st3) := by
  simp [retrieve_data, hpop, hm]

theorem retrieve_data_steady (ops : MessageOps T R S)
    {st : FeederRecycler T R S} {rest : List R} {x : R}
    (hpop : vecPop st.input_vec = some (rest, x)) (hm : st.messages ≠ 0) :
    retrieve_data ops st =
      match get_message ops
          (if st.messages < st.package_number
           then feed_initial_messages ops { st with input_vec := rest }
           else { st with input_vec := rest }) with
      | none => none
      | some (m, st2) =>
          some (some (ops.clone_message_data m),
                send_message st2 (ops.set_input m x)) := by
  simp [retrieve_data, hpop, hm]

/-! ## The master step lemma

One iteration step of a well-formed feeder: end-of-sequence exactly when
nothing remains, otherwise exactly one result, with the remaining count
decremented, well-formedness and the budget bound preserved, and the
backlog only ever shortened from the end. -/

theorem retrieve_data_spec (ops : MessageOps T R S) (st : FeederRecycler T R S)
    (hwf : wf st) :
    (get_remaining_messages st = 0 → retrieve_data ops st = some (none, st)) ∧
    (get_remaining_messages st ≠ 0 →
      ∃ d st', retrieve_data ops st = some (some d, st') ∧
        wf st' ∧
        get_remaining_messages st' + 1 = get_remaining_messages st ∧
        st'.package_number = st.package_number ∧
        (1 ≤ st.package_number → st.messages ≤ st.package_number →
            st'.messages ≤ st.package_number) ∧
        (∃ dropped, st.input_vec = st'.input_vec ++ dropped)) := by
  cases hpop : vecPop st.input_vec with
  | none =>
      have hinput : st.input_vec = [] := vecPop_eq_none_iff.mp hpop
      by_cases hm : st.messages = 0
      · refine ⟨fun _ => retrieve_data_done ops hpop hm, fun hr => absurd ?_ hr⟩
        simp [get_remaining_messages, hinput, hm]
      · constructor
        · intro hr
          rw [get_remaining_messages, hinput] at hr
          simp at hr
          exact absurd hr hm
        · intro _
          obtain ⟨e, ps, hp, hget⟩ := get_message_of_wf ops hwf hm
          refine ⟨ops.clone_message_data (ops.work e),
            { st with messages := st.messages - 1, pending := ps }, ?_, ?_, ?_, rfl, ?_, ⟨[], by simp⟩⟩
          · rw [retrieve_data_collect ops hpop hm, hget]
          · rw [wf, hp] at hwf
            simp only [wf]
            simp at hwf
            omega
          · simp only [get_remaining_messages]
            omega
          · intro _ hb
            simp only []
            omega
  | some p =>
      obtain ⟨rest, x⟩ := p
      have hinput : st.input_vec = rest ++ [x] := vecPop_eq_some hpop
      have hrem : get_remaining_messages st = st.messages + rest.length + 1 := by
        rw [get_remaining_messages, hinput]
        simp
        omega
      constructor
      · intro hr
        omega
      · intro _
        by_cases hm : st.messages = 0
        · -- bootstrap case
          set st1 : FeederRecycler T R S :=
            send_message
              { st with input_vec := rest, constructed := st.constructed + 1 }
              (ops.set_input ops.new x) with hst1
          have hwf1 : wf st1 := wf_send_message (by simpa [wf] using hwf) _
          set st2 : FeederRecycler T R S := feed_initial_messages ops st1 with hst2
          have hwf2 : wf st2 := feed_initial_messages_wf ops hwf1
          have hm2 : st2.messages ≠ 0 := by
            have h1 : st1.messages = st.messages + 1 := rfl
            have := feed_initial_messages_ge ops st1
            rw [← hst2] at this
            omega
          obtain ⟨e, ps, hp, hget⟩ := get_message_of_wf ops hwf2 hm2
          set st3 : FeederRecycler T R S :=
            { st2 with messages := st2.messages - 1, pending := ps } with hst3
          refine ⟨ops.clone_message_data (ops.work e),
            feed_initial_messages ops st3, ?_, ?_, ?_, ?_, ?_, ?_⟩
          · rw [retrieve_data_bootstrap ops hpop hm, ← hst1, ← hst2, hget]
          · refine feed_initial_messages_wf ops ?_
            rw [wf, hp] at hwf2
            simp only [wf, hst3]
            simp at hwf2
            omega
          · rw [feed_initial_messages_remaining ops st3]
            have h2 : get_remaining_messages st2 = get_remaining_messages st1 :=
              feed_initial_messages_remaining ops st1
            have hi1 : st1.input_vec = rest := rfl
            have hmm1 : st1.messages = st.messages + 1 := rfl
            have hi3 : st3.input_vec = st2.input_vec := rfl
            have hmm3 : st3.messages = st2.messages - 1 := rfl
            have hlen : st.input_vec.length = rest.length + 1 := by
              rw [hinput]; simp
            simp only [get_remaining_messages] at h2 ⊢
            rw [hi1, hmm1] at h2
            rw [hlen]
            omega
          · have hp3 := feed_initial_messages_package ops st3
            have hp2 := feed_initial_messages_package ops st1
            have h32 : st3.package_number = st2.package_number := rfl
            have h10 : st1.package_number = st.package_number := rfl
            rw [hp3, h32, hst2, hp2, h10]
          · intro hb _
            have h1 : st1.messages = 1 := by
              have : st1.messages = st.messages + 1 := rfl
              omega
            have hpkg1 : st1.package_number = st.package_number := rfl
            have h2 : st2.messages ≤ st.package_number := by
              have := @feed_initial_messages_le_budget T R S ops st1 (by omega)
              rw [← hst2] at this
              omega
            have hmm3 : st3.messages = st2.messages - 1 := rfl
            have hpkg3 : st3.package_number = st.package_number := by
              have h32 : st3.package_number = st2.package_number := rfl
              have h2p := feed_initial_messages_package ops st1
              rw [h32, hst2, h2p, hpkg1]
            have := @feed_initial_messages_le_budget T R S ops st3 (by omega)
            omega
          · obtain ⟨d2, hd2⟩ := feed_initial_messages_input_drop ops st1
            rw [← hst2] at hd2
            obtain ⟨d3, hd3⟩ := feed_initial_messages_input_drop ops st3
            have hi1 : st1.input_vec = rest := rfl
            have hi3 : st3.input_vec = st2.input_vec := rfl
            refine ⟨d3 ++ d2 ++ [x], ?_⟩
            rw [hinput, ← hi1, hd2, ← hi3, hd3]
            simp
        · -- steady case
          set st0 : FeederRecycler T R S := { st with input_vec := rest } with hst0
          set st1 : FeederRecycler T R S :=
            if st.messages < st.package_number
            then feed_initial_messages ops st0
            else st0 with hst1
          have hwf0 : wf st0 := by simpa [wf, hst0] using hwf
          have hwf1 : wf st1 := by
            rw [hst1]
            split
            · exact feed_initial_messages_wf ops hwf0
            · exact hwf0
          have hmsg0 : st0.messages = st.messages := rfl
          have hpkg0 : st0.package_number = st.package_number := rfl
          have hm1 : st.messages ≤ st1.messages := by
            rw [hst1]
            split
            · have := feed_initial_messages_ge ops st0
              omega
            · omega
          have hpkg1 : st1.package_number = st.package_number := by
            rw [hst1]
            split
            · rw [feed_initial_messages_package ops st0]
            · rfl
          have hrem1 : get_remaining_messages st1 = st.messages + rest.length := by
            have h0 : get_remaining_messages st0 = st.messages + rest.length := by
              simp [get_remaining_messages, hst0]
            rw [hst1]
            split
            · rw [feed_initial_messages_remaining ops st0, h0]
            · rw [h0]
          have hm1' : st1.messages ≠ 0 := by omega
          obtain ⟨e, ps, hp, hget⟩ := get_message_of_wf ops hwf1 hm1'
          set st2 : FeederRecycler T R S :=
            { st1 with messages := st1.messages - 1, pending := ps } with hst2
          refine ⟨ops.clone_message_data (ops.work e),
            send_message st2 (ops.set_input (ops.work e) x), ?_, ?_, ?_, ?_, ?_, ?_⟩
          · rw [retrieve_data_steady ops hpop hm, ← hst0, ← hst1, hget]
          · refine wf_send_message ?_ _
            rw [wf, hp] at hwf1
            simp only [wf, hst2]
            simp at hwf1
            omega
          · have h2 : get_remaining_messages st2 = get_remaining_messages st1 - 1 := by
              simp only [get_remaining_messages, hst2]
              omega
            simp only [get_remaining_messages, send_message] at *
            omega
          · simp only [send_message, hst2]
            rw [hpkg1]
          · intro hb hble
            have hle1 : st1.messages ≤ st.package_number := by
              rw [hst1]
              split
              · have := @feed_initial_messages_le_budget T R S ops st0 (by omega)
                omega
              · omega
            simp only [send_message, hst2]
            omega
          · have hi2 : st2.input_vec = st1.input_vec := rfl
            have hdrop1 : ∃ dropped, rest = st1.input_vec ++ dropped := by
              rw [hst1]
              split
              · obtain ⟨d, hd⟩ := feed_initial_messages_input_drop ops st0
                exact ⟨d, by simpa [hst0] using hd⟩
              · exact ⟨[], by simp [hst0]⟩
            obtain ⟨d1, hd1⟩ := hdrop1
            refine ⟨d1 ++ [x], ?_⟩
            simp only [send_message, hi2]
            rw [hinput, hd1]
            simp

/-- A successful `get_message` leaves the backlog, the budget and the
construction count untouched and removes the head of `pending`. -/
theorem get_message_some (ops : MessageOps T R S) {st st' : FeederRecycler T R S}
    {m : S} (h : get_message ops st = some (m, st')) :
    st'.input_vec = st.input_vec ∧ st'.package_number = st.package_number ∧
      st'.constructed = st.constructed := by
  unfold get_message at h
  cases hp : st.pending with
  | nil => rw [hp] at h; exact absurd h (by simp)
  | cons e rest =>
      rw [hp] at h
      simp only [Option.some.injEq, Prod.mk.injEq] at h
      obtain ⟨-, h2⟩ := h
      rw [← h2]
      exact ⟨rfl, rfl, rfl⟩

/-- The unfolding equation of `drain` for positive fuel. -/
theorem drain_succ (ops : MessageOps T R S) (fuel : Nat)
    (st : FeederRecycler T R S) :
    drain ops (fuel + 1) st =
      match retrieve_data ops st with
      | none => []
      | some (none, _) => []
      | some (some d, st') => d :: drain ops fuel st' := rfl

/-- Draining a well-formed feeder with enough fuel produces exactly
`get_remaining_messages` results. -/
theorem drain_length (ops : MessageOps T R S) :
    ∀ (fuel : Nat) (st : FeederRecycler T R S), wf st →
      get_remaining_messages st ≤ fuel →
      (drain ops fuel st).length = get_remaining_messages st := by
  intro fuel
  induction fuel with
  | zero =>
      intro st _ hle
      simp only [drain, List.length_nil]
      omega
  | succ fuel ih =>
      intro st hwf hle
      by_cases h0 : get_remaining_messages st = 0
      · rw [drain_succ, (retrieve_data_spec ops st hwf).1 h0]
        simp [h0]
      · obtain ⟨d, st', heq, hwf', hrem, -, -, -⟩ :=
          (retrieve_data_spec ops st hwf).2 h0
        rw [drain_succ, heq]
        simp only [List.length_cons]
        rw [ih st' hwf' (by omega)]
        omega

end FeederRecycler

namespace FeederRecycler

variable {T R S : Type}

/-! ## Claim theorems: conservation, remaining count, backlog order -/

/-- **C8**: the remaining-count query returns exactly the in-flight
counter plus the backlog length; an iteration step signals end-of-sequence
exactly when this quantity is zero; and every step that returns a result
decreases it by exactly one. -/
theorem remaining_spec (ops : MessageOps T R S) (st : FeederRecycler T R S)
    (hwf : wf st) :
    get_remaining_messages st = st.messages + st.input_vec.length ∧
    (retrieve_data ops st = some (none, st) ↔ get_remaining_messages st = 0) ∧
    (∀ (d : T) (st' : FeederRecycler T R S),
        retrieve_data ops st = some (some d, st') →
        get_remaining_messages st' + 1 = get_remaining_messages st) := by
  refine ⟨rfl, ⟨?_, (retrieve_data_spec ops st hwf).1⟩, ?_⟩
  · intro h
    by_contra h0
    obtain ⟨d, st', heq, -, -, -, -, -⟩ := (retrieve_data_spec ops st hwf).2 h0
    rw [heq] at h
    simp at h
  · intro d st' heq
    by_cases h0 : get_remaining_messages st = 0
    · rw [(retrieve_data_spec ops st hwf).1 h0] at heq
      simp at heq
    · obtain ⟨d0, st0, heq0, -, hrem, -, -, -⟩ :=
        (retrieve_data_spec ops st hwf).2 h0
      rw [heq0] at heq
      simp only [Option.some.injEq, Prod.mk.injEq] at heq
      obtain ⟨-, h2⟩ := heq
      rw [← h2]
      exact hrem

/-- **C8 witness**: a fresh feeder has remaining count zero and its first
step signals end-of-sequence. -/
theorem remaining_spec_witness :
    retrieve_data unitOps (new (T := Unit) (R := Unit) (S := Unit) 0 1) =
      some (none, new 0 1) :=
  ((remaining_spec unitOps (new 0 1) (wf_new 0 1)).2.1).mpr rfl

/-- **C9**: the backlog is consumed last-fed, first-dispatched: `feed`
appends the caller's inputs to the end of the backlog and leaves the
caller's vector empty; `Vec::pop` removes exactly the most recently
appended element; the top-up loop pops from the end; and every successful
iteration step only ever shortens the backlog from its end (the remaining
backlog is a prefix of the old one). -/
theorem backlog_lifo (ops : MessageOps T R S) :
    (∀ (st : FeederRecycler T R S) (v : List R),
        (st.append_input v).1.input_vec = st.input_vec ++ v ∧
        (st.append_input v).2 = []) ∧
    (∀ (l : List R) (x : R), vecPop (l ++ [x]) = some (l, x)) ∧
    (∀ (st : FeederRecycler T R S) (rest : List R) (x : R) (n : Nat),
        vecPop st.input_vec = some (rest, x) →
        feed_loop ops (n + 1) st =
          feed_loop ops n
            (send_message
              { st with input_vec := rest, constructed := st.constructed + 1 }
              (ops.set_input ops.new x))) ∧
    (∀ (st : FeederRecycler T R S) (d : Option T) (st' : FeederRecycler T R S),
        retrieve_data ops st = some (d, st') →
        ∃ dropped, st.input_vec = st'.input_vec ++ dropped) := by
  refine ⟨fun st v => ⟨rfl, rfl⟩, fun l x => vecPop_concat l x,
    fun st rest x n hpop => feed_loop_succ_pop ops hpop n, ?_⟩
  intro st d st' heq
  cases hpop : vecPop st.input_vec with
  | none =>
      by_cases hm : st.messages = 0
      · rw [retrieve_data_done ops hpop hm] at heq
        simp only [Option.some.injEq, Prod.mk.injEq] at heq
        obtain ⟨-, h2⟩ := heq
        rw [← h2]
        exact ⟨[], by simp⟩
      · rw [retrieve_data_collect ops hpop hm] at heq
        cases hget : get_message ops st with
        | none => rw [hget] at heq; exact absurd heq (by simp)
        | some pr =>
            obtain ⟨m, stg⟩ := pr
            rw [hget] at heq
            simp only [Option.some.injEq, Prod.mk.injEq] at heq
            obtain ⟨-, h2⟩ := heq
            obtain ⟨hi, -, -⟩ := get_message_some ops hget
            rw [← h2]
            exact ⟨[], by simp [hi]⟩
  | some pr =>
      obtain ⟨rest, x⟩ := pr
      have hinput := vecPop_eq_some hpop
      by_cases hm : st.messages = 0
      · rw [retrieve_data_bootstrap ops hpop hm] at heq
        cases hget : get_message ops (feed_initial_messages ops
            (send_message
              { st with input_vec := rest, constructed := st.constructed + 1 }
              (ops.set_input ops.new x))) with
        | none => rw [hget] at heq; exact absurd heq (by simp)
        | some pr2 =>
            obtain ⟨m, st3⟩ := pr2
            rw [hget] at heq
            simp only [Option.some.injEq, Prod.mk.injEq] at heq
            obtain ⟨-, h2⟩ := heq
            obtain ⟨hi3, -, -⟩ := get_message_some ops hget
            obtain ⟨d2, hd2⟩ := feed_initial_messages_input_drop ops
              (send_message
                { st with input_vec := rest, constructed := st.constructed + 1 }
                (ops.set_input ops.new x))
            obtain ⟨d3, hd3⟩ := feed_initial_messages_input_drop ops st3
            refine ⟨d3 ++ d2 ++ [x], ?_⟩
            rw [← h2]
            have hsi : (send_message (T := T)
                { st with input_vec := rest, constructed := st.constructed + 1 }
                (ops.set_input ops.new x)).input_vec = rest := rfl
            rw [hsi] at hd2
            rw [hinput, hd2, ← hi3, hd3]
            simp
      · rw [retrieve_data_steady ops hpop hm] at heq
        set st1 : FeederRecycler T R S :=
          if st.messages < st.package_number
          then feed_initial_messages ops { st with input_vec := rest }
          else { st with input_vec := rest } with hst1
        cases hget : get_message ops st1 with
        | none => rw [hget] at heq; exact absurd heq (by simp)
        | some pr2 =>
            obtain ⟨m, st2⟩ := pr2
            rw [hget] at heq
            simp only [Option.some.injEq, Prod.mk.injEq] at heq
            obtain ⟨-, h2⟩ := heq
            obtain ⟨hi2, -, -⟩ := get_message_some ops hget
            have hd1 : ∃ d1, rest = st1.input_vec ++ d1 := by
              rw [hst1]
              split
              · obtain ⟨d1, hd1⟩ := feed_initial_messages_input_drop ops
                  { st with input_vec := rest }
                exact ⟨d1, hd1⟩
              · exact ⟨[], by simp⟩
            obtain ⟨d1, hd1⟩ := hd1
            refine ⟨d1 ++ [x], ?_⟩
            rw [← h2]
            have hsend : (send_message st2 (ops.set_input m x)).input_vec =
                st2.input_vec := rfl
            rw [hsend, hi2, hinput, hd1]
            simp

/-! ## Claim theorems: bounded in-flight, bootstrap and steady cases -/

/-- **C5 counterexample**: the claim's "the Envelope constructor is never
invoked on this path" is false: in the steady case (backlog non-empty,
counter positive) but under budget, the step's top-up constructs a fresh
envelope — on `underBudgetState` one step increases `constructed` from 0
to 1. -/
theorem steady_step_constructs :
    underBudgetState.messages ≠ 0 ∧ underBudgetState.input_vec ≠ [] ∧
    underBudgetState.messages < underBudgetState.package_number ∧
    (retrieve_data unitOps underBudgetState).map (fun p => p.2.constructed) =
      some (underBudgetState.constructed + 1) :=
  ⟨by decide, by decide, by decide, by decide⟩

/-- State-level shape of the steady case, used by the system-level steady
theorem: the step tops up if under budget, collects one envelope, extracts
its result by duplication, installs the next backlog input into that same
collected envelope and re-dispatches it; fresh envelopes are constructed
only by the top-up — when the counter is already at the budget no envelope
constructor is invoked at all (`constructed` is unchanged). -/
theorem steady_state_step (ops : MessageOps T R S) (st : FeederRecycler T R S)
    (hwf : wf st) (rest : List R) (x : R)
    (hpop : vecPop st.input_vec = some (rest, x)) (hm : st.messages ≠ 0) :
    ∃ st1 e ps,
      st1 = (if st.messages < st.package_number
             then top_up ops { st with input_vec := rest }
             else { st with input_vec := rest }) ∧
      st1.pending = e :: ps ∧
      retrieve_data ops st =
        some (some (ops.clone_message_data (ops.work e)),
              send_message { st1 with messages := st1.messages - 1, pending := ps }
                (ops.set_input (ops.work e) x)) ∧
      (st.package_number ≤ st.messages →
        (send_message (T := T) { st1 with messages := st1.messages - 1, pending := ps }
          (ops.set_input (ops.work e) x)).constructed = st.constructed) := by
  set st1 : FeederRecycler T R S :=
    if st.messages < st.package_number
    then feed_initial_messages ops { st with input_vec := rest }
    else { st with input_vec := rest } with hst1
  have hwf0 : wf ({ st with input_vec := rest } : FeederRecycler T R S) := by
    simpa [wf] using hwf
  have hwf1 : wf st1 := by
    rw [hst1]
    split
    · exact feed_initial_messages_wf ops hwf0
    · exact hwf0
  have hm1 : st1.messages ≠ 0 := by
    rw [hst1]
    split
    · have := feed_initial_messages_ge ops
        ({ st with input_vec := rest } : FeederRecycler T R S)
      have h0 : ({ st with input_vec := rest } :
          FeederRecycler T R S).messages = st.messages := rfl
      omega
    · exact hm
  obtain ⟨e, ps, hp, hget⟩ := get_message_of_wf ops hwf1 hm1
  refine ⟨st1, e, ps, ?_, hp, ?_, ?_⟩
  · rw [hst1, top_up_eq_feed_initial_messages ops]
  · rw [retrieve_data_steady ops hpop hm, ← hst1, hget]
  · intro hge
    have hnl : ¬ st.messages < st.package_number := by omega
    have h1 : st1 = { st with input_vec := rest } := by
      rw [hst1, if_neg hnl]
    simp only [send_message]
    rw [h1]

/-- **C9 witness**: one bootstrap step on a singleton backlog consumes the
single (most recently appended) input, leaving an empty backlog. -/
theorem backlog_lifo_witness :
    ∃ dropped, bootstrapState.input_vec =
      ({ id := 0, messages := 0, package_number := 1, input_vec := [],
         pending := [], constructed := 1 } :
        FeederRecycler Unit Unit Unit).input_vec ++ dropped :=
  (backlog_lifo unitOps).2.2.2 bootstrapState (some ())
    { id := 0, messages := 0, package_number := 1, input_vec := [],
      pending := [], constructed := 1 } (by decide)

end FeederRecycler

/-! ## Claim theorems: configuration -/

/-- **C6**: setting the worker count to `w` fails with `InvalidConfig`
exactly when `w < 1` (the error case yields no new configuration, so the
caller's four fields stay as they were); on success it sets
`worker_number` to `w` and resets the derived fields: `channel_size` to
`w` and `package_number` to `2 * w`. -/
theorem set_worker_number_spec (c : ChannelConfig) (w : Nat) :
    (c.set_worker_number w = .error .InvalidConfig ↔ w < 1) ∧
    (1 ≤ w →
      c.set_worker_number w =
        .ok { stack_size := c.stack_size, worker_number := w,
              package_number := 2 * w, channel_size := w }) := by
  constructor
  · constructor
    · intro h
      by_contra hw
      rw [ChannelConfig.set_worker_number, if_neg hw] at h
      exact absurd h (by simp)
    · intro h
      rw [ChannelConfig.set_worker_number, if_pos h]
  · intro h
    rw [ChannelConfig.set_worker_number, if_neg (by omega), Nat.mul_comm]

/-- **C6 witness**: the failure at `w = 0` and the spec's scenario
`worker_count = 4 ⇒ in_flight_budget = 8, queue_capacity = 4`, on the
default configuration. -/
theorem set_worker_number_spec_witness :
    ChannelConfig.default.set_worker_number 4 =
      .ok { stack_size := 2 * 1024 * 1024, worker_number := 4,
            package_number := 8, channel_size := 4 } ∧
    ChannelConfig.default.set_worker_number 0 = .error .InvalidConfig := by
  constructor
  · have h := (set_worker_number_spec ChannelConfig.default 4).2 (by omega)
    rw [h]
    rfl
  · exact (set_worker_number_spec ChannelConfig.default 0).1.mpr (by omega)

/-- **C7**: every configuration reachable from the defaults by successful
setter calls satisfies `worker_number ≥ 1` and
`package_number > worker_number`; and setting the in-flight budget fails
with `InvalidConfig` exactly when the new value is `≤ worker_number` (the
error case yields no new configuration, so the prior state is unchanged). -/
theorem config_validity :
    (∀ c : ChannelConfig, ReachableConfig c →
        1 ≤ c.worker_number ∧ c.worker_number < c.package_number) ∧
    (∀ (c : ChannelConfig) (p : Nat),
        c.set_package_number p = .error .InvalidConfig ↔ p ≤ c.worker_number) := by
  constructor
  · intro c h
    induction h with
    | default => exact ⟨by norm_num [ChannelConfig.default], by norm_num [ChannelConfig.default]⟩
    | set_worker_number hr heq ih =>
        rename_i c0 c1 w
        rw [ChannelConfig.set_worker_number] at heq
        by_cases hw : w < 1
        · rw [if_pos hw] at heq
          exact absurd heq (by simp)
        · rw [if_neg hw] at heq
          simp only [Except.ok.injEq] at heq
          rw [← heq]
          exact ⟨by show 1 ≤ w; omega, by show w < w * 2; omega⟩
    | set_package_number hr heq ih =>
        rename_i c0 c1 p
        rw [ChannelConfig.set_package_number] at heq
        by_cases hp : p ≤ c0.worker_number
        · rw [if_pos hp] at heq
          exact absurd heq (by simp)
        · rw [if_neg hp] at heq
          simp only [Except.ok.injEq] at heq
          rw [← heq]
          exact ⟨ih.1, by show c0.worker_number < p; omega⟩
    | set_stack_size hr ih => exact ih
  · intro c p
    constructor
    · intro h
      by_contra hp
      rw [ChannelConfig.set_package_number, if_neg hp] at h
      exact absurd h (by simp)
    · intro h
      rw [ChannelConfig.set_package_number, if_pos h]

/-- **C7 witness**: the invariant at the default configuration, and the
rejection of an in-flight budget equal to the worker count. -/
theorem config_validity_witness :
    (1 ≤ ChannelConfig.default.worker_number ∧
      ChannelConfig.default.worker_number < ChannelConfig.default.package_number) ∧
    ChannelConfig.default.set_package_number 8 = .error .InvalidConfig :=
  ⟨config_validity.1 ChannelConfig.default ReachableConfig.default,
   (config_validity.2 ChannelConfig.default 8).mpr (by decide)⟩

/-- **C10**: the default configuration has `worker_number = 8`,
`channel_size = 8`, `package_number = 16`, `stack_size = 2 * 1024 * 1024`
bytes, and each accessor returns exactly its stored field. -/
theorem default_config_spec :
    ChannelConfig.default.get_worker_number = 8 ∧
    ChannelConfig.default.get_channel_size = 8 ∧
    ChannelConfig.default.get_package_number = 16 ∧
    ChannelConfig.default.get_stack_size = 2 * 1024 * 1024 ∧
    (∀ c : ChannelConfig,
      c.get_stack_size = c.stack_size ∧
      c.get_worker_number = c.worker_number ∧
      c.get_package_number = c.package_number ∧
      c.get_channel_size = c.channel_size) :=
  ⟨rfl, rfl, rfl, rfl, fun _ => ⟨rfl, rfl, rfl, rfl⟩⟩

/-! ## Claim theorems: the worker loop -/

/-- **C3**: contrary to the claim, a Worker whose shared dispatch-queue
handle has expired, or whose receive attempt reports disconnect, does NOT
terminate: `Worker::get_message` executes `std::mem::drop(self)` on a
shared reference (a no-op) and its loop has no exit on those paths, so on
any stream of `expired` (or `recvDisconnected`) observations the loop is
still spinning — the thread never ends, gracefully or otherwise.  This
contradicts the module's own documentation ("when kik_channel drops,
workers will lose the reference and drop without panicking") and its
comments ("Main reference dropped. Worker closing"). -/
theorem worker_shutdown_spins (S : Type) (n : Nat) :
    worker_get_message (List.replicate n (AcquireObs.expired : AcquireObs S)) =
      WorkerOutcome.spinning ∧
    worker_get_message
        (List.replicate n (AcquireObs.recvDisconnected : AcquireObs S)) =
      WorkerOutcome.spinning := by
  induction n with
  | zero => exact ⟨rfl, rfl⟩
  | succ n ih =>
      constructor
      · rw [List.replicate_succ]
        exact ih.1
      · rw [List.replicate_succ]
        exact ih.2

namespace DeliveryService

variable {T R S : Type}

/-! ## Transfer lemmas: below the transit capacity, the bounded system
agrees with the state-level model -/

theorem send_bounded_lt (cap : Nat) (st : FeederRecycler T R S) (m : S)
    (h : st.messages < cap) :
    send_bounded cap st m = some (st.send_message m) := by
  rw [send_bounded, if_pos h]

theorem send_bounded_not_lt (cap : Nat) (st : FeederRecycler T R S) (m : S)
    (h : ¬ st.messages < cap) :
    send_bounded cap st m = none := by
  rw [send_bounded, if_neg h]

theorem feed_loop_bounded_succ_none (ops : MessageOps T R S) (cap : Nat)
    {st : FeederRecycler T R S} (hpop : vecPop st.input_vec = none) (n : Nat) :
    feed_loop_bounded ops cap (n + 1) st = some st := by
  simp only [feed_loop_bounded, hpop]

theorem feed_loop_bounded_succ_pop (ops : MessageOps T R S) (cap : Nat)
    {st : FeederRecycler T R S} {rest : List R} {x : R}
    (hpop : vecPop st.input_vec = some (rest, x)) (n : Nat) :
    feed_loop_bounded ops cap (n + 1) st =
      match send_bounded cap
          { st with input_vec := rest, constructed := st.constructed + 1 }
          (ops.set_input ops.new x) with
      | none => none
      | some st' => feed_loop_bounded ops cap n st' := by
  simp only [feed_loop_bounded, hpop]

theorem feed_loop_bounded_eq (ops : MessageOps T R S) (cap : Nat) :
    ∀ (n : Nat) (st : FeederRecycler T R S), st.messages + n ≤ cap →
      feed_loop_bounded ops cap n st =
        some (FeederRecycler.feed_loop ops n st) := by
  intro n
  induction n with
  | zero => intro st _; rfl
  | succ n ih =>
      intro st h
      cases hpop : vecPop st.input_vec with
      | none =>
          rw [feed_loop_bounded_succ_none ops cap hpop,
            FeederRecycler.feed_loop_succ_none ops hpop]
      | some p =>
          obtain ⟨rest, x⟩ := p
          rw [feed_loop_bounded_succ_pop ops cap hpop,
            FeederRecycler.feed_loop_succ_pop ops hpop,
            send_bounded_lt cap
              { st with input_vec := rest, constructed := st.constructed + 1 }
              (ops.set_input ops.new x) (by show st.messages < cap; omega)]
          exact ih _ (by show st.messages + 1 + n ≤ cap; omega)

theorem feed_initial_messages_bounded_eq (ops : MessageOps T R S) (cap : Nat)
    (st : FeederRecycler T R S) (hm : st.messages ≤ cap)
    (hp : st.package_number ≤ cap) :
    feed_initial_messages_bounded ops cap st =
      some (FeederRecycler.feed_initial_messages ops st) := by
  rw [feed_initial_messages_bounded, FeederRecycler.feed_initial_messages]
  exact feed_loop_bounded_eq ops cap _ st (by omega)

theorem retrieve_bounded_done (ops : MessageOps T R S) (cap : Nat)
    {st : FeederRecycler T R S} (hpop : vecPop st.input_vec = none)
    (hm : st.messages = 0) :
    retrieve_bounded ops cap st = some (none, st) := by
  simp [retrieve_bounded, hpop, hm]

theorem retrieve_bounded_collect (ops : MessageOps T R S) (cap : Nat)
    {st : FeederRecycler T R S} (hpop : vecPop st.input_vec = none)
    (hm : st.messages ≠ 0) :
    retrieve_bounded ops cap st =
      match FeederRecycler.get_message ops st with
      | none => none
      | some (m, st') => some (some (ops.clone_message_data m), st') := by
  simp [retrieve_bounded, hpop, hm]

theorem retrieve_bounded_bootstrap (ops : MessageOps T R S) (cap : Nat)
    {st : FeederRecycler T R S} {rest : List R} {x : R}
    (hpop : vecPop st.input_vec = some (rest, x)) (hm : st.messages = 0) :
    retrieve_bounded ops cap st =
      match send_bounded cap
          { st with input_vec := rest, constructed := st.constructed + 1 }
          (ops.set_input ops.new x) with
      | none => none
      | some st1 =>
          match feed_initial_messages_bounded ops cap st1 with
          | none => none
          | some st2 =>
              match FeederRecycler.get_message ops st2 with
              | none => none
              | some (m, st3) =>
                  match feed_initial_messages_bounded ops cap st3 with
                  | none => none
                  | some st4 =>
                      some (some (ops.clone_message_data m), st4) := by
  simp [retrieve_bounded, hpop, hm]

theorem retrieve_bounded_steady (ops : MessageOps T R S) (cap : Nat)
    {st : FeederRecycler T R S} {rest : List R} {x : R}
    (hpop : vecPop st.input_vec = some (rest, x)) (hm : st.messages ≠ 0) :
    retrieve_bounded ops cap st =
      match (if st.messages < st.package_number
             then feed_initial_messages_bounded ops cap
               { st with input_vec := rest }
             else some { st with input_vec := rest }) with
      | none => none
      | some st1 =>
          match FeederRecycler.get_message ops st1 with
          | none => none
          | some (m, st2) =>
              match send_bounded cap st2 (ops.set_input m x) with
              | none => none
              | some st3 =>
                  some (some (ops.clone_message_data m), st3) := by
  simp [retrieve_bounded, hpop, hm]

/-- Below capacity, one bounded iteration step agrees exactly with the
state-level step: every send the step attempts happens at an in-flight
count below `cap`. -/
theorem retrieve_bounded_eq (ops : MessageOps T R S) (cap : Nat)
    (st : FeederRecycler T R S) (hwf : FeederRecycler.wf st)
    (hble : st.messages ≤ st.package_number)
    (hcap : st.package_number ≤ cap) (hone : 1 ≤ cap) :
    retrieve_bounded ops cap st = FeederRecycler.retrieve_data ops st := by
  cases hpop : vecPop st.input_vec with
  | none =>
      by_cases hm : st.messages = 0
      · rw [retrieve_bounded_done ops cap hpop hm,
          FeederRecycler.retrieve_data_done ops hpop hm]
      · rw [retrieve_bounded_collect ops cap hpop hm,
          FeederRecycler.retrieve_data_collect ops hpop hm]
  | some p =>
      obtain ⟨rest, x⟩ := p
      by_cases hm : st.messages = 0
      · rw [retrieve_bounded_bootstrap ops cap hpop hm,
          FeederRecycler.retrieve_data_bootstrap ops hpop hm,
          send_bounded_lt cap
            { st with input_vec := rest, constructed := st.constructed + 1 }
            (ops.set_input ops.new x) (by show st.messages < cap; omega)]
        set st1 : FeederRecycler T R S :=
          FeederRecycler.send_message
            { st with input_vec := rest, constructed := st.constructed + 1 }
            (ops.set_input ops.new x) with hst1
        have hm1 : st1.messages = st.messages + 1 := rfl
        have hpk1 : st1.package_number = st.package_number := rfl
        have hwf1 : FeederRecycler.wf st1 :=
          FeederRecycler.wf_send_message
            (by simpa [FeederRecycler.wf] using hwf) _
        have hfe1 : feed_initial_messages_bounded ops cap st1 =
            some (FeederRecycler.feed_initial_messages ops st1) :=
          feed_initial_messages_bounded_eq ops cap st1 (by omega) (by omega)
        set st2 : FeederRecycler T R S :=
          FeederRecycler.feed_initial_messages ops st1 with hst2
        have hwf2 : FeederRecycler.wf st2 := by
          rw [hst2]
          exact FeederRecycler.feed_initial_messages_wf ops hwf1
        have hm2le : st2.messages ≤
            st1.messages + (st1.package_number - st1.messages) := by
          rw [hst2, FeederRecycler.feed_initial_messages]
          exact FeederRecycler.feed_loop_messages_le ops _ st1
        have hm2ge : st1.messages ≤ st2.messages := by
          rw [hst2]
          exact FeederRecycler.feed_initial_messages_ge ops st1
        have hpk2 : st2.package_number = st.package_number := by
          rw [hst2, FeederRecycler.feed_initial_messages_package ops st1, hpk1]
        have hm2 : st2.messages ≠ 0 := by omega
        obtain ⟨e, ps, hp, hget⟩ := FeederRecycler.get_message_of_wf ops hwf2 hm2
        have hfe3 : feed_initial_messages_bounded ops cap
            { st2 with messages := st2.messages - 1, pending := ps } =
            some (FeederRecycler.feed_initial_messages ops
              { st2 with messages := st2.messages - 1, pending := ps }) :=
          feed_initial_messages_bounded_eq ops cap _
            (by show st2.messages - 1 ≤ cap; omega)
            (by show st2.package_number ≤ cap; omega)
        simp only [hfe1, hget, hfe3]
      · rw [retrieve_bounded_steady ops cap hpop hm,
          FeederRecycler.retrieve_data_steady ops hpop hm]
        by_cases hlt : st.messages < st.package_number
        · rw [if_pos hlt, if_pos hlt]
          have hwf0 : FeederRecycler.wf
              ({ st with input_vec := rest } : FeederRecycler T R S) := by
            simpa [FeederRecycler.wf] using hwf
          have hfe0 : feed_initial_messages_bounded ops cap
              { st with input_vec := rest } =
              some (FeederRecycler.feed_initial_messages ops
                { st with input_vec := rest }) :=
            feed_initial_messages_bounded_eq ops cap _
              (by show st.messages ≤ cap; omega)
              (by show st.package_number ≤ cap; omega)
          set st1 : FeederRecycler T R S :=
            FeederRecycler.feed_initial_messages ops
              { st with input_vec := rest } with hst1
          have hwf1 : FeederRecycler.wf st1 := by
            rw [hst1]
            exact FeederRecycler.feed_initial_messages_wf ops hwf0
          have hm1ge : st.messages ≤ st1.messages := by
            rw [hst1]
            exact FeederRecycler.feed_initial_messages_ge ops
              { st with input_vec := rest }
          have hm1le : st1.messages ≤ st.package_number := by
            rw [hst1]
            exact @FeederRecycler.feed_initial_messages_le_budget T R S ops
              { st with input_vec := rest }
              (by show st.messages ≤ st.package_number; omega)
          have hm1 : st1.messages ≠ 0 := by omega
          obtain ⟨e, ps, hp, hget⟩ :=
            FeederRecycler.get_message_of_wf ops hwf1 hm1
          have hsend2 : send_bounded cap
              { st1 with messages := st1.messages - 1, pending := ps }
              (ops.set_input (ops.work e) x) =
              some (FeederRecycler.send_message
                { st1 with messages := st1.messages - 1, pending := ps }
                (ops.set_input (ops.work e) x)) :=
            send_bounded_lt (T := T) cap
              { st1 with messages := st1.messages - 1, pending := ps }
              (ops.set_input (ops.work e) x)
              (by show st1.messages - 1 < cap; omega)
          simp only [hfe0, hget, hsend2]
        · rw [if_neg hlt, if_neg hlt]
          have hwf0 : FeederRecycler.wf
              ({ st with input_vec := rest } : FeederRecycler T R S) := by
            simpa [FeederRecycler.wf] using hwf
          obtain ⟨e, ps, hp, hget⟩ :=
            FeederRecycler.get_message_of_wf ops hwf0 hm
          have hsend2 : send_bounded cap
              { ({ st with input_vec := rest } : FeederRecycler T R S) with
                  messages := ({ st with input_vec := rest } :
                    FeederRecycler T R S).messages - 1, pending := ps }
              (ops.set_input (ops.work e) x) =
              some (FeederRecycler.send_message
                { ({ st with input_vec := rest } : FeederRecycler T R S) with
                    messages := ({ st with input_vec := rest } :
                      FeederRecycler T R S).messages - 1, pending := ps }
                (ops.set_input (ops.work e) x)) :=
            send_bounded_lt (T := T) cap
              { ({ st with input_vec := rest } : FeederRecycler T R S) with
                  messages := ({ st with input_vec := rest } :
                    FeederRecycler T R S).messages - 1, pending := ps }
              (ops.set_input (ops.work e) x)
              (by show st.messages - 1 < cap; omega)
          simp only [hget, hsend2]

/-- The unfolding equation of `drain_bounded` for positive fuel. -/
theorem drain_bounded_succ (ops : MessageOps T R S) (cap fuel : Nat)
    (st : FeederRecycler T R S) :
    drain_bounded ops cap (fuel + 1) st =
      match retrieve_bounded ops cap st with
      | none => []
      | some (none, _) => []
      | some (some d, st') => d :: drain_bounded ops cap fuel st' := rfl

/-- Below capacity, draining the bounded system produces the same results
as draining the state-level model. -/
theorem drain_bounded_eq (ops : MessageOps T R S) (cap : Nat) :
    ∀ (fuel : Nat) (st : FeederRecycler T R S), FeederRecycler.wf st →
      st.messages ≤ st.package_number → 1 ≤ st.package_number →
      st.package_number ≤ cap →
      drain_bounded ops cap fuel st = FeederRecycler.drain ops fuel st := by
  intro fuel
  induction fuel with
  | zero => intro st _ _ _ _; rfl
  | succ fuel ih =>
      intro st hwf hble hpn hcap
      have hone : 1 ≤ cap := by omega
      rw [drain_bounded_succ, FeederRecycler.drain_succ,
        retrieve_bounded_eq ops cap st hwf hble hcap hone]
      by_cases h0 : FeederRecycler.get_remaining_messages st = 0
      · simp only [(FeederRecycler.retrieve_data_spec ops st hwf).1 h0]
      · obtain ⟨d, st', heq, hwf', hrem, hpkg', hb, -⟩ :=
          (FeederRecycler.retrieve_data_spec ops st hwf).2 h0
        have hb' := hb (by omega) hble
        have hdr := ih st' hwf' (by omega) (by omega) (by omega)
        simp only [heq, hdr]

/-- One step of the full system equals the state-level step, mapped back
into the system, whenever the budget fits the transit capacity and at
least one worker is alive. -/
theorem sys_retrieve_eq (ops : MessageOps T R S) (sys : DeliveryService T R S)
    (hwf : FeederRecycler.wf sys.feeder)
    (hble : sys.feeder.messages ≤ sys.feeder.package_number)
    (hw : 1 ≤ sys.worker_number)
    (hcap : sys.feeder.package_number ≤ transit_capacity sys) :
    retrieve_data ops sys =
      (FeederRecycler.retrieve_data ops sys.feeder).map
        (fun p => (p.1, { sys with feeder := p.2 })) := by
  have hone : 1 ≤ transit_capacity sys := by
    show 1 ≤ 2 * sys.channel_size + sys.worker_number
    omega
  rw [retrieve_data,
    retrieve_bounded_eq ops (transit_capacity sys) sys.feeder hwf hble hcap hone]
  cases FeederRecycler.retrieve_data ops sys.feeder with
  | none => rfl
  | some p =>
      obtain ⟨d, st⟩ := p
      rfl

/-! ## Claim theorems: conservation and the two result-producing cases,
on the bounded system -/

/-- **C1 counterexample**: a valid configuration on which draining loses
every result.  `set_worker_number 1` (queue capacity 1) then
`set_package_number 4` (valid: 4 > 1) gives transit capacity
`2 * 1 + 1 = 3 < 4`; feeding four inputs and draining yields zero of the
four results — the first step's top-up attempts a fourth dispatch with
three envelopes already parked and spins forever. -/
theorem conservation_deadlock :
    ∃ c1 c2 : ChannelConfig,
      ChannelConfig.default.set_worker_number 1 = .ok c1 ∧
      c1.set_package_number 4 = .ok c2 ∧
      1 ≤ c2.worker_number ∧ c2.worker_number < c2.package_number ∧
      ((new (T := Unit) (R := Unit) (S := Unit) c2).feed_feeder
        [(), (), (), ()]).1 = deadlockService ∧
      len deadlockService = 4 ∧
      drain unitOps 4 deadlockService = [] := by
  refine ⟨{ stack_size := 2 * 1024 * 1024, worker_number := 1,
            package_number := 2, channel_size := 1 },
          { stack_size := 2 * 1024 * 1024, worker_number := 1,
            package_number := 4, channel_size := 1 },
          rfl, rfl, by decide, by decide, by decide, by decide, by decide⟩

/-- **C1 (amended)**: conservation — for every valid configuration
(`worker_count ≥ 1`, `in_flight_budget > worker_count`) whose in-flight
budget is at most the transit capacity `2 * queue_capacity + worker_count`
(in particular every configuration derived by `set_worker_number` alone,
where the budget is `2·w ≤ 3·w`), feeding N inputs into a fresh pool and
draining to end-of-sequence yields exactly N results. -/
theorem conservation_bounded (ops : MessageOps T R S) (c : ChannelConfig)
    (fuel : Nat) (inputs : List R) (hw : 1 ≤ c.worker_number)
    (hvalid : c.worker_number < c.package_number)
    (hcap : c.package_number ≤ 2 * c.channel_size + c.worker_number)
    (hfuel : inputs.length ≤ fuel) :
    (drain ops fuel
        ((new (T := T) (R := R) (S := S) c).feed_feeder inputs).1).length
      = inputs.length := by
  set sysf : DeliveryService T R S :=
    ((new (T := T) (R := R) (S := S) c).feed_feeder inputs).1 with hsysf
  have hfe : sysf.feeder =
      ((FeederRecycler.new (T := T) (R := R) (S := S) 0
        c.package_number).append_input inputs).1 := rfl
  have hwfs : FeederRecycler.wf sysf.feeder := by
    rw [hfe]
    exact FeederRecycler.wf_append_input
      (FeederRecycler.wf_new 0 c.package_number) inputs
  have hrem : FeederRecycler.get_remaining_messages sysf.feeder =
      inputs.length := by
    rw [hfe]
    simp [FeederRecycler.new, FeederRecycler.append_input,
      FeederRecycler.get_remaining_messages]
  rw [drain, drain_bounded_eq ops (transit_capacity sysf) fuel sysf.feeder
      hwfs
      (by show (0 : Nat) ≤ c.package_number; omega)
      (by show (1 : Nat) ≤ c.package_number; omega)
      (by show c.package_number ≤ 2 * c.channel_size + c.worker_number; omega),
    FeederRecycler.drain_length ops fuel sysf.feeder hwfs
      (by rw [hrem]; omega)]
  exact hrem

/-- **C1 witness**: two inputs through a worker-1 configuration whose
budget 2 fits the transit capacity 3 give exactly two results. -/
theorem conservation_bounded_witness :
    (drain unitOps 2
        ((new (T := Unit) (R := Unit) (S := Unit)
          { stack_size := 2 * 1024 * 1024, worker_number := 1,
            package_number := 2, channel_size := 1 }).feed_feeder
          [(), ()]).1).length = 2 :=
  conservation_bounded unitOps
    { stack_size := 2 * 1024 * 1024, worker_number := 1,
      package_number := 2, channel_size := 1 }
    2 [(), ()] (by decide) (by decide) (by decide) (by decide)

/-- **C5 (amended)**: the steady case, provided the counter is within the
budget, the budget fits the transit capacity and ≥ 1 worker is alive (all
guaranteed on reachable states of a valid configuration).  The step tops
up if under budget, collects one envelope, extracts its result by
duplication, installs the next backlog input into that same collected
envelope and re-dispatches it, returning the result; fresh envelopes are
constructed on this path only by the top-up — when the counter is already
at the budget no envelope constructor is invoked (`constructed` is
unchanged). -/
theorem steady_state_step_bounded (ops : MessageOps T R S)
    (sys : DeliveryService T R S) (hwf : FeederRecycler.wf sys.feeder)
    (rest : List R) (x : R)
    (hpop : vecPop sys.feeder.input_vec = some (rest, x))
    (hm : sys.feeder.messages ≠ 0)
    (hble : sys.feeder.messages ≤ sys.feeder.package_number)
    (hw : 1 ≤ sys.worker_number)
    (hcap : sys.feeder.package_number ≤ transit_capacity sys) :
    ∃ st1 e ps,
      st1 = (if sys.feeder.messages < sys.feeder.package_number
             then FeederRecycler.top_up ops { sys.feeder with input_vec := rest }
             else { sys.feeder with input_vec := rest }) ∧
      st1.pending = e :: ps ∧
      retrieve_data ops sys =
        some (some (ops.clone_message_data (ops.work e)),
              { sys with feeder := (FeederRecycler.send_message
                  { st1 with messages := st1.messages - 1, pending := ps }
                  (ops.set_input (ops.work e) x)) }) ∧
      (sys.feeder.package_number ≤ sys.feeder.messages →
        (FeederRecycler.send_message (T := T)
            { st1 with messages := st1.messages - 1, pending := ps }
            (ops.set_input (ops.work e) x)).constructed =
          sys.feeder.constructed) := by
  obtain ⟨st1, e, ps, h1, h2, h3, h4⟩ :=
    FeederRecycler.steady_state_step ops sys.feeder hwf rest x hpop hm
  refine ⟨st1, e, ps, h1, h2, ?_, h4⟩
  rw [sys_retrieve_eq ops sys hwf hble hw hcap, h3]
  rfl

/-- **C5 witness**: the steady step on a one-worker system (transit
capacity 3) exactly at budget 1. -/
theorem steady_state_step_bounded_witness :
    ∃ st1 e ps,
      st1 = (if steadyAtBudgetState.messages < steadyAtBudgetState.package_number
             then FeederRecycler.top_up unitOps
               { steadyAtBudgetState with input_vec := [] }
             else { steadyAtBudgetState with input_vec := [] }) ∧
      st1.pending = e :: ps ∧
      retrieve_data unitOps
          { worker_number := 1, channel_size := 1,
            feeder := steadyAtBudgetState } =
        some (some (),
              { worker_number := 1, channel_size := 1,
                feeder := FeederRecycler.send_message
                  { st1 with messages := st1.messages - 1, pending := ps }
                  () }) ∧
      (steadyAtBudgetState.package_number ≤ steadyAtBudgetState.messages →
        (FeederRecycler.send_message (T := Unit)
            { st1 with messages := st1.messages - 1, pending := ps }
            ()).constructed = steadyAtBudgetState.constructed) :=
  steady_state_step_bounded unitOps ⟨1, 1, steadyAtBudgetState⟩ rfl [] ()
    (by decide) (by decide) (by decide) (by decide) (by decide)

end DeliveryService

end KikSync
